import Mathlib

/-!
Verification of the multilevel survey/administrative-data pipeline
(`src/transform.py`, `src/merge.py`, `src/analyze.py`, `run_pipeline.py`).

Each Python function relevant to the checked properties is shallowly embedded
as an executable Lean definition operating on rationals (for float arithmetic),
`Option` (for pandas missing values / NaN), `String` (for codes) and lists
(for DataFrames).  Column subsets irrelevant to a property (e.g. the CBS
indicator columns) are abstracted as opaque payload type parameters; all
control flow and arithmetic that a property touches is translated literally.
-/

/-! ## Python string semantics

The Python string operations used by the pipeline are defined over the
character list `String.data`, so that every definition evaluates inside the
kernel on concrete codes. -/

/-- Python `len(s)` for strings. -/
def pyLen (s : String) : Nat := s.data.length

/-- Python slicing `s[:n]`. -/
def pyTake (s : String) (n : Nat) : String := String.mk (s.data.take n)

/-- Python slicing `s[n:]`. -/
def pyDrop (s : String) (n : Nat) : String := String.mk (s.data.drop n)

/-- Removal of the last `n` characters, Python `s[:-n]` for `n ≤ len(s)`. -/
def pyDropRight (s : String) (n : Nat) : String :=
  String.mk (s.data.take (s.data.length - n))

/-- Python `s.startswith(t)`. -/
def pyStartsWith (s t : String) : Bool := t.data.isPrefixOf s.data

/-- Python `s.endswith(t)`. -/
def pyEndsWith (s t : String) : Bool := t.data.isSuffixOf s.data

/-- Python `s.strip()`: remove leading and trailing whitespace. -/
def pyStrip (s : String) : String :=
  String.mk (((s.data.dropWhile Char.isWhitespace).reverse.dropWhile
    Char.isWhitespace).reverse)

/-- Python `str.zfill(width)`: left-pad with `'0'` up to `width` characters;
a leading sign character stays in front of the inserted zeros; a string that
is already at least `width` long is returned unchanged. -/
def zfill (width : Nat) (s : String) : String :=
  if width ≤ pyLen s then s
  else
    let pad := String.mk (List.replicate (width - pyLen s) '0')
    if pyStartsWith s "-" || pyStartsWith s "+" then
      pyTake s 1 ++ pad ++ pyDrop s 1
    else
      pad ++ s

/-- The regex substitution `.str.replace(r"\.0$", "", regex=True)` from
`create_geo_ids`: remove one trailing `".0"` (a numeric-storage artifact). -/
def stripTrailingDot0 (s : String) : String :=
  if pyEndsWith s ".0" then pyDropRight s 2 else s

/-! ## `create_geo_ids` (src/transform.py:28-76)

A survey row's raw `Buurtcode` is modeled as `Option String` (`none` = NaN;
the pandas `astype(str)` of a non-missing value is the string itself).  The
source builds `buurt_id` by stripping a trailing `".0"` and zero-filling to
8 characters, overwrites it with NaN where `Buurtcode` is NaN, takes string
prefixes of length 6 and 4 for `wijk_id` / `gemeente_id`, and finally resets
both to NaN wherever `buurt_id` is NaN. -/

structure GeoIds where
  buurt_id : Option String
  wijk_id : Option String
  gemeente_id : Option String
deriving DecidableEq, Repr

def create_geo_ids (buurtcode : Option String) : GeoIds :=
  match buurtcode with
  | none => ⟨none, none, none⟩
  | some s =>
    let b := zfill 8 (stripTrailingDot0 s)
    ⟨some b, some (pyTake b 6), some (pyTake b 4)⟩

/-! ## `calculate_icc` (src/analyze.py:391-434)

The empty model's two variance components (`cov_re[0,0]` and `scale`) are the
only inputs; everything else is rational arithmetic, reproduced literally. -/

structure ICCResult where
  icc : ℚ
  var_buurt : ℚ
  var_residual : ℚ
  var_total : ℚ
  pct_between : ℚ
  pct_within : ℚ
deriving DecidableEq, Repr

def calculate_icc (var_buurt var_residual : ℚ) : ICCResult :=
  let var_total := var_buurt + var_residual
  { icc := var_buurt / var_total
    var_buurt := var_buurt
    var_residual := var_residual
    var_total := var_total
    pct_between := 100 * var_buurt / var_total
    pct_within := 100 * var_residual / var_total }

/-! ## `recode_survey_variables`, dependent-variable section (src/transform.py:228-253)

Only the outcome construction is relevant to the checked properties: the three
raw 7-point items (`gov_int`, `red_inc_diff`, `union_pref`) have the refused
sentinel `8` recoded to NaN in place, then `DV_single` is the rescaled
`red_inc_diff`, `DV_2item`/`DV_3item` are row means (pandas `mean(axis=1)`
skips NaN), and the `_scaled` variants rescale those means.  Demographic
recodes (sex labels, z-scored age/education, employment maps) touch disjoint
columns and are outside the stated properties, so the row model carries only
the outcome-relevant fields. -/

structure DVRow where
  gov_int : Option ℚ
  red_inc_diff : Option ℚ
  union_pref : Option ℚ
  DV_single : Option ℚ
  DV_2item : Option ℚ
  DV_2item_scaled : Option ℚ
  DV_3item : Option ℚ
  DV_3item_scaled : Option ℚ
deriving DecidableEq, Repr

/-- The in-place recode `df.loc[df[var] == 8, var] = np.nan`. -/
def recode8 (x : Option ℚ) : Option ℚ :=
  match x with
  | none => none
  | some v => if v = 8 then none else some v

/-- The linear rescaling `(x - 1) / 6 * 100` from a 1-7 item to 0-100. -/
def rescale0100 (x : ℚ) : ℚ :=
  (x - 1) / 6 * 100

/-- pandas `DataFrame.mean(axis=1)`: mean of the non-missing entries, NaN when
all entries are missing. -/
def rowMean (xs : List (Option ℚ)) : Option ℚ :=
  let vals := xs.filterMap id
  if vals.length = 0 then none else some (vals.sum / vals.length)

def recode_survey_variables (r : DVRow) : DVRow :=
  let g := recode8 r.gov_int
  let rd := recode8 r.red_inc_diff
  let u := recode8 r.union_pref
  let m2 := rowMean [g, rd]
  let m3 := rowMean [g, rd, u]
  { gov_int := g
    red_inc_diff := rd
    union_pref := u
    DV_single := rd.map rescale0100
    DV_2item := m2
    DV_2item_scaled := m2.map rescale0100
    DV_3item := m3
    DV_3item_scaled := m3.map rescale0100 }

/-! ## `create_inequality_indices` (src/transform.py:402-444)

For each of the three level tags the source checks that both share columns
exist; if so it adds the polarization column (the plain sum) and the quotient
column `high20 / (low40.abs() + 0.01)`.  One level's pair of share columns is
modeled as a pair of `Option ℚ` (a `none` component means the column is absent
for that level, in which case neither index is created). -/

def create_inequality_indices (low40 high20 : Option ℚ) : Option ℚ × Option ℚ :=
  match low40, high20 with
  | some l, some h => (some (l + h), some (h / (|l| + 1/100)))
  | _, _ => (none, none)

/-! ## `prepare_admin_by_level` (src/transform.py:83-197)

The raw CBS table is a list of rows, each carrying its region-code string and
its indicator values; the indicator columns (renamed and tagged `b_`/`w_`/`g_`
by the source) are abstracted as an opaque payload, since the checked
properties concern only row selection, id parsing, padding and deduplication.
The source computes `region_code_clean = code.strip()`, maps the first two
characters through `{BU, WK, GM}`, parses `region_id = clean[2:].strip()`,
then for each level filters to that level's rows, zero-fills the id to the
level's width (8/6/4), and drops duplicate ids keeping the first occurrence
(pandas `drop_duplicates` default). -/

inductive GeoLevel where
  | buurt
  | wijk
  | gemeente
deriving DecidableEq, Repr

/-- The per-level id width used by the `zfill` in the source's level loop. -/
def idLength : GeoLevel → Nat
  | .buurt => 8
  | .wijk => 6
  | .gemeente => 4

/-- The mapping `.str[:2].map({"BU": "Buurt", "WK": "Wijk", "GM": "Gemeente"})`
applied to the cleaned region code; an unrecognized two-character head maps to
NaN (here `none`). -/
def regionType (clean : String) : Option GeoLevel :=
  if pyTake clean 2 = "BU" then some .buurt
  else if pyTake clean 2 = "WK" then some .wijk
  else if pyTake clean 2 = "GM" then some .gemeente
  else none

structure AdminRow (α : Type) where
  code : String
  payload : α
deriving DecidableEq, Repr

structure LevelRow (α : Type) where
  id : String
  payload : α
deriving DecidableEq, Repr

/-- pandas `drop_duplicates(subset=[key])` with the default `keep="first"`:
keep a row only if its key was not seen earlier in the list. -/
def dropDupFirstAux (key : β → String) (seen : List String) : List β → List β
  | [] => []
  | a :: as =>
    if key a ∈ seen then dropDupFirstAux key seen as
    else a :: dropDupFirstAux key (key a :: seen) as

def dropDupFirst (key : β → String) (l : List β) : List β :=
  dropDupFirstAux key [] l

/-- The `region_id` column: `clean[2:].strip()` of the cleaned code. -/
def parsedRegionId (code : String) : String :=
  pyStrip (pyDrop (pyStrip code) 2)

/-- One iteration of the source's level loop: filter to the level, build the
zero-filled id column, drop duplicate ids keeping the first occurrence. -/
def prepare_admin_by_level (lvl : GeoLevel) (admin : List (AdminRow α)) :
    List (LevelRow α) :=
  let levelRows := admin.filter (fun r => regionType (pyStrip r.code) = some lvl)
  let tagged := levelRows.map (fun r =>
    LevelRow.mk (zfill (idLength lvl) (parsedRegionId r.code)) r.payload)
  dropDupFirst LevelRow.id tagged

/-! ## `merge_survey_admin` (src/merge.py:31-83)

Survey rows carry the three geographic ids (possibly NaN) plus opaque survey
content; each of the three level tables is a list of `LevelRow`.  A pandas
left merge keeps every left row, attaching each matching right row in order
(and NaN payloads when there is no match); a left row is replicated once per
match, which is how duplicate ids in a level table change the row count.  The
source checks `len(merged) != initial_n` at the end and prints a warning; the
printed warning is modeled as the returned `Bool` flag. -/

structure SurveyRow (σ : Type) where
  content : σ
  buurt_id : Option String
  wijk_id : Option String
  gemeente_id : Option String
deriving DecidableEq, Repr

structure MergedRow (σ β : Type) where
  survey : SurveyRow σ
  bdata : Option β
  wdata : Option β
  gdata : Option β
deriving DecidableEq, Repr

/-- All right-table rows matching one left row (level-table ids are never NaN
in this pipeline, so a NaN left key matches nothing). -/
def joinMatches (key : Option String) (right : List (LevelRow β)) :
    List (LevelRow β) :=
  right.filter (fun rr => key == some rr.id)

/-- The contribution of one left row to a pandas left merge. -/
def joinOne (key : α → Option String) (right : List (LevelRow β)) (a : α) :
    List (α × Option β) :=
  let ms := joinMatches (key a) right
  if ms.isEmpty then [(a, none)] else ms.map (fun rr => (a, some rr.payload))

/-- pandas `left.merge(right, on=key, how="left")`. -/
def leftJoin (left : List α) (key : α → Option String)
    (right : List (LevelRow β)) : List (α × Option β) :=
  left.flatMap (joinOne key right)

/-- The buurt-level block: `if "buurt" in admin_by_level and len(...) > 0`
guard, then the left merge on `buurt_id`. -/
def mergeBuurt (m : List (MergedRow σ β)) (buurt : List (LevelRow β)) :
    List (MergedRow σ β) :=
  if buurt.isEmpty then m else
    (leftJoin m (fun x => x.survey.buurt_id) buurt).map
      (fun p => { p.1 with bdata := p.2 })

/-- The wijk-level block: left merge on `wijk_id`. -/
def mergeWijk (m : List (MergedRow σ β)) (wijk : List (LevelRow β)) :
    List (MergedRow σ β) :=
  if wijk.isEmpty then m else
    (leftJoin m (fun x => x.survey.wijk_id) wijk).map
      (fun p => { p.1 with wdata := p.2 })

/-- The gemeente-level block: left merge on `gemeente_id`. -/
def mergeGemeente (m : List (MergedRow σ β)) (gemeente : List (LevelRow β)) :
    List (MergedRow σ β) :=
  if gemeente.isEmpty then m else
    (leftJoin m (fun x => x.survey.gemeente_id) gemeente).map
      (fun p => { p.1 with gdata := p.2 })

def merge_survey_admin (survey : List (SurveyRow σ))
    (buurt wijk gemeente : List (LevelRow β)) :
    List (MergedRow σ β) × Bool :=
  let m0 : List (MergedRow σ β) :=
    survey.map (fun r => ⟨r, none, none, none⟩)
  let m3 := mergeGemeente (mergeWijk (mergeBuurt m0 buurt) wijk) gemeente
  (m3, decide (m3.length ≠ survey.length))

/-! ## `create_analysis_sample` (src/merge.py:275-338)

A row of the merged table is modeled as an association list from column name
to an optional value (`none` = NaN).  The source drops rows with a missing
value in any required column (`dropna(subset=required)`), computes
`value_counts` of `buurt_id` on the surviving rows (`value_counts` excludes
NaN), and keeps the rows whose `buurt_id` is in the set of clusters of size at
least `MIN_CLUSTER_SIZE` (`isin` is false for NaN, so a NaN `buurt_id` row
would be dropped by this second filter as well). -/

def SampleRow : Type := List (String × Option String)

instance : DecidableEq SampleRow := by
  unfold SampleRow
  infer_instance

/-- Column access on a row; a column absent from the row reads as NaN. -/
def getVal (r : SampleRow) (c : String) : Option String :=
  (List.lookup c r).join

/-- Row survives `dropna(subset=required)`. -/
def isComplete (required : List String) (r : SampleRow) : Bool :=
  required.all (fun c => (getVal r c).isSome)

/-- Size of the cluster of `b` among `rows` (`value_counts` of `buurt_id`). -/
def clusterSize (rows : List SampleRow) (b : String) : Nat :=
  (rows.filter (fun r => getVal r "buurt_id" == some b)).length

/-- The cluster filter `sample["buurt_id"].isin(valid_clusters)`:
NaN ids are never in the `value_counts` index, hence never valid. -/
def inValidCluster (sample : List SampleRow) (minSize : Nat) (r : SampleRow) :
    Bool :=
  match getVal r "buurt_id" with
  | none => false
  | some b => minSize ≤ clusterSize sample b

/-- `MIN_CLUSTER_SIZE` from config.py. -/
def MIN_CLUSTER_SIZE : Nat := 2

def create_analysis_sample (required : List String) (minSize : Nat)
    (data : List SampleRow) : List SampleRow :=
  let sample := data.filter (isComplete required)
  sample.filter (inValidCluster sample minSize)

/-! ## `standardize_context_vars` (src/transform.py:361-395)

A column of the merged table is modeled by its name, a numeric-dtype flag (the
source's `df[col].dtype in [np.float64, np.int64, float, int]`), and its
values.  The source z-scores a column in place when its name starts with one
of the level tags `b_`/`w_`/`g_`, its dtype is numeric, and its sample
standard deviation is strictly positive; pandas `mean`/`std` skip NaN and
`std` uses `ddof=1` (NaN, hence not `> 0`, on fewer than two observations).
The standard deviation is irrational in general, so the embedding passes the
square root as an explicit function argument applied to the exactly-computed
sample variance; the checked properties depend only on which columns are
modified and on the variance being strictly positive when the division
happens. -/

structure CtxColumn where
  name : String
  numeric : Bool
  values : List (Option ℚ)
deriving DecidableEq, Repr

/-- Non-missing entries of a column (pandas skipna). -/
def colVals (c : CtxColumn) : List ℚ := c.values.filterMap id

/-- pandas `Series.mean()` over the non-missing entries. -/
def colMean (c : CtxColumn) : ℚ :=
  (colVals c).sum / (colVals c).length

/-- The square of pandas `Series.std()` (`ddof=1`), and `0` when pandas would
return NaN (fewer than two non-missing observations); `std_val > 0` in the
source is exactly `0 < colSampleVar` here. -/
def colSampleVar (c : CtxColumn) : ℚ :=
  let vs := colVals c
  if vs.length < 2 then 0
  else ((vs.map (fun x => (x - colMean c) ^ 2)).sum) / (vs.length - 1)

/-- The column-name test `any(col.startswith(p) for p in prefixes)`. -/
def nameHasLevelTag (tags : List String) (name : String) : Bool :=
  tags.any (fun p => pyStartsWith name p)

/-- The source's in-place update for a single column: z-score it when the
name-tag, dtype and `std_val > 0` guards all hold, otherwise leave it
untouched.  `sqrt` stands for the floating-point square root producing
`std_val` from the sample variance. -/
def standardizeCol (sqrt : ℚ → ℚ) (tags : List String) (c : CtxColumn) :
    CtxColumn :=
  if nameHasLevelTag tags c.name && c.numeric && decide (0 < colSampleVar c) then
    { c with values :=
        c.values.map (Option.map (fun x => (x - colMean c) / sqrt (colSampleVar c))) }
  else c

def standardize_context_vars (sqrt : ℚ → ℚ) (tags : List String)
    (cols : List CtxColumn) : List CtxColumn :=
  cols.map (standardizeCol sqrt tags)

/-! ## `fit_four_level_models` (src/analyze.py:180-342) and its caller
(run_pipeline.py:144-153)

The five REML fits are numerical library calls; each is modeled as an
abstract fallible call `fit`, keyed by the model's slot in the sequence, that
either returns a fitted model (an opaque value) or raises (`Except.error`
with the exception message).  The source calls the five fits in a straight
line with no `try`/`except` between them, so in the embedding the first error
propagates and aborts the remaining fits, exactly as a Python exception
would.  The pipeline driver wraps the whole call in a single `try`/`except`
that prints one warning and leaves `four_level_models = None`; the driver is
modeled by `run_four_level_stage`. -/

structure FourLevelModels (μ : Type) where
  m0_empty : μ
  m1_key_pred : μ
  m2_ind_controls : μ
  m3_buurt_controls : μ
  m4_wijk_controls : μ
deriving DecidableEq, Repr

def fit_four_level_models (fit : String → Except String μ) :
    Except String (FourLevelModels μ) := do
  let m0 ← fit "m0_empty"
  let m1 ← fit "m1_key_pred"
  let m2 ← fit "m2_ind_controls"
  let m3 ← fit "m3_buurt_controls"
  let m4 ← fit "m4_wijk_controls"
  pure ⟨m0, m1, m2, m3, m4⟩

/-- The run_pipeline.py call site: one `try`/`except` around the whole
four-level sequence; on any exception the driver prints a single warning and
keeps no four-level models at all. -/
def run_four_level_stage (fit : String → Except String μ) :
    Option (FourLevelModels μ) :=
  match fit_four_level_models fit with
  | .ok ms => some ms
  | .error _ => none

/-! ## Helper lemmas -/

theorem recode8_fixpoint (x : Option ℚ) : recode8 (recode8 x) = recode8 x := by
  cases x with
  | none => rfl
  | some v =>
    by_cases h : v = 8 <;> simp [recode8, h]

theorem recode8_ne_sentinel (x : ℚ) (h : x ≠ 8) : recode8 (some x) = some x := by
  simp [recode8, h]

/-! ## Claim theorems -/

/-- C1: `create_geo_ids` strips a trailing ".0" from the raw `Buurtcode`,
left-pads it with zeros to 8 characters to obtain `buurt_id`, sets `wijk_id`
and `gemeente_id` to the first 6 and first 4 characters of `buurt_id`, maps a
missing `Buurtcode` to three missing outputs (never partially derived), and
sends the concrete input "3630100" to ("03630100", "036301", "0363"). -/
theorem C1_create_geo_ids :
    create_geo_ids none = ⟨none, none, none⟩ ∧
    (∀ s : String,
      create_geo_ids (some s) =
        ⟨some (zfill 8 (stripTrailingDot0 s)),
         some (pyTake (zfill 8 (stripTrailingDot0 s)) 6),
         some (pyTake (zfill 8 (stripTrailingDot0 s)) 4)⟩) ∧
    create_geo_ids (some "3630100") =
      ⟨some "03630100", some "036301", some "0363"⟩ := by
  refine ⟨rfl, fun s => rfl, by decide⟩

/-- C4: `calculate_icc` computes the ICC of the empty model as
`var_between / (var_between + var_residual)` exactly, reports the total as the
sum of the two components, the between/within percentages sum to 100, and on
between-variance 17.8 with residual variance 512.4 the ICC is within 0.0001 of
0.0336. -/
theorem C4_calculate_icc :
    (∀ vb vr : ℚ, 0 < vb + vr →
      (calculate_icc vb vr).icc = vb / (vb + vr) ∧
      (calculate_icc vb vr).var_total =
        (calculate_icc vb vr).var_buurt + (calculate_icc vb vr).var_residual ∧
      (calculate_icc vb vr).pct_between + (calculate_icc vb vr).pct_within
        = 100) ∧
    |(calculate_icc (178/10) (5124/10)).icc - 336/10000| < 1/10000 := by
  constructor
  · intro vb vr h
    have hne : vb + vr ≠ 0 := ne_of_gt h
    refine ⟨rfl, rfl, ?_⟩
    show 100 * vb / (vb + vr) + 100 * vr / (vb + vr) = 100
    field_simp
    ring
  · norm_num [calculate_icc, abs]

/-- C4 witness: the theorem applied at the concrete variance components
17.8 and 512.4 of end-to-end scenario 4. -/
theorem C4_calculate_icc_witness :
    (calculate_icc (178/10) (5124/10)).icc = (178/10 : ℚ) / (178/10 + 5124/10) ∧
    (calculate_icc (178/10) (5124/10)).pct_between
      + (calculate_icc (178/10) (5124/10)).pct_within = 100 := by
  have h := C4_calculate_icc.1 (178/10) (5124/10) (by norm_num)
  exact ⟨h.1, h.2.2⟩

/-- C6: in the outcome construction, the refused sentinel 8 is recoded to
missing before the rescaling `(x - 1) / 6 * 100` is applied, so a raw value 8
yields a missing `DV_single` while any other present raw value `x` yields
`(x - 1) / 6 * 100`; the midpoint 4 maps to exactly 50, and every value in
`[1, 7]` rescales into `[0, 100]`. -/
theorem C6_recode_survey_variables :
    rescale0100 4 = 50 ∧
    (∀ x : ℚ, 1 ≤ x → x ≤ 7 → 0 ≤ rescale0100 x ∧ rescale0100 x ≤ 100) ∧
    (∀ r : DVRow, r.red_inc_diff = some 8 →
      (recode_survey_variables r).DV_single = none) ∧
    (∀ r : DVRow, ∀ x : ℚ, r.red_inc_diff = some x → x ≠ 8 →
      (recode_survey_variables r).DV_single = some (rescale0100 x)) := by
  refine ⟨by norm_num [rescale0100], ?_, ?_, ?_⟩
  · intro x h1 h7
    unfold rescale0100
    constructor <;> nlinarith
  · intro r h
    simp [recode_survey_variables, h, recode8]
  · intro r x h hx
    simp [recode_survey_variables, h, recode8_ne_sentinel x hx]

/-- C6 witness: the theorem applied at the midpoint raw value 4 (scenario 2)
and at a refused row. -/
theorem C6_recode_survey_variables_witness :
    (0 ≤ rescale0100 4 ∧ rescale0100 4 ≤ 100) ∧
    (recode_survey_variables ⟨some 1, some 8, none, none, none, none, none, none⟩).DV_single = none ∧
    (recode_survey_variables ⟨some 1, some 4, none, none, none, none, none, none⟩).DV_single = some (rescale0100 4) := by
  refine ⟨C6_recode_survey_variables.2.1 4 (by norm_num) (by norm_num),
    C6_recode_survey_variables.2.2.1 ⟨some 1, some 8, none, none, none, none, none, none⟩ rfl,
    C6_recode_survey_variables.2.2.2 ⟨some 1, some 4, none, none, none, none, none, none⟩ 4 rfl (by norm_num)⟩

/-- C9: re-running the recoder on a row it has already transformed changes
nothing: the raw items are fixed points after the first pass (the only
in-place raw edit, 8 to missing, is idempotent) and every rescaled outcome is
recomputed from those preserved raw columns, so the non-idempotent rescaling
is never applied to an already-rescaled value. -/
theorem C9_recode_idempotent (r : DVRow) :
    recode_survey_variables (recode_survey_variables r)
      = recode_survey_variables r := by
  simp [recode_survey_variables, recode8_fixpoint]

/-- C8: where both share columns exist, the polarization index is exactly the
sum of the two shares, the income quotient is exactly
`high20 / (|low40| + 0.01)` whose denominator is at least 0.01 (never zero),
and the concrete shares (20, 30) give polarization 50 and quotient
30 / 20.01 = 3000/2001, within 0.0001 of 1.4993. -/
theorem C8_create_inequality_indices :
    (∀ l h : ℚ, create_inequality_indices (some l) (some h) =
      (some (l + h), some (h / (|l| + 1/100)))) ∧
    (∀ l : ℚ, 1/100 ≤ |l| + 1/100 ∧ |l| + 1/100 ≠ 0) ∧
    create_inequality_indices (some 20) (some 30)
      = (some 50, some (3000/2001)) ∧
    |(3000 : ℚ)/2001 - 14993/10000| < 1/10000 := by
  refine ⟨fun l h => rfl, ?_, ?_, ?_⟩
  · intro l
    have h0 : (0:ℚ) ≤ |l| := abs_nonneg l
    constructor
    · linarith
    · positivity
  · norm_num [create_inequality_indices]
  · rw [abs_sub_lt_iff]
    norm_num

/-- C3: `create_analysis_sample` applies the complete-case filter to the
input first and the cluster-size filter to the complete cases afterwards;
consequently every row of the output is complete on all required columns, and
every cluster represented in the output keeps at least `minSize` rows in the
output itself (the cluster filter removes whole clusters, never single rows
of a surviving cluster). -/
theorem C3_create_analysis_sample (required : List String) (minSize : Nat)
    (data : List SampleRow) :
    create_analysis_sample required minSize data =
      (data.filter (isComplete required)).filter
        (inValidCluster (data.filter (isComplete required)) minSize) ∧
    (∀ r ∈ create_analysis_sample required minSize data,
      isComplete required r = true) ∧
    (∀ r ∈ create_analysis_sample required minSize data, ∀ b : String,
      getVal r "buurt_id" = some b →
      minSize ≤ ((create_analysis_sample required minSize data).filter
        (fun r2 => getVal r2 "buurt_id" == some b)).length) := by
  refine ⟨rfl, ?_, ?_⟩
  · intro r hr
    have hr' : r ∈ data.filter (isComplete required) :=
      List.mem_of_mem_filter hr
    exact (List.mem_filter.mp hr').2
  · intro r hr b hb
    set sample := data.filter (isComplete required) with hsample
    have hmem : r ∈ sample ∧ inValidCluster sample minSize r = true :=
      List.mem_filter.mp hr
    have hsize : minSize ≤ clusterSize sample b := by
      have h := hmem.2
      unfold inValidCluster at h
      rw [hb] at h
      simpa using h
    have hcount :
        ((create_analysis_sample required minSize data).filter
          (fun r2 => getVal r2 "buurt_id" == some b)).length
          = clusterSize sample b := by
      show ((sample.filter (inValidCluster sample minSize)).filter
        (fun r2 => getVal r2 "buurt_id" == some b)).length = _
      rw [List.filter_filter]
      unfold clusterSize
      congr 1
      apply List.filter_congr
      intro x hx
      by_cases hxb : getVal x "buurt_id" == some b
      · have hxb' : getVal x "buurt_id" = some b := by
          simpa using hxb
        have : inValidCluster sample minSize x = true := by
          unfold inValidCluster
          rw [hxb']
          simpa using hsize
        simp [hxb, this]
      · simp [hxb]
    omega

/-- C3 witness: the theorem applied to a concrete merged table in which the
complete-case filter keeps two rows of cluster "b1" and drops an incomplete
row, with the configured default minimum cluster size. -/
theorem C3_create_analysis_sample_witness :
    isComplete ["DV_single", "buurt_id"]
      [("DV_single", some "50"), ("buurt_id", some "b1")] = true ∧
    MIN_CLUSTER_SIZE ≤
      ((create_analysis_sample ["DV_single", "buurt_id"] MIN_CLUSTER_SIZE
        [[("DV_single", some "50"), ("buurt_id", some "b1")],
         [("DV_single", some "60"), ("buurt_id", some "b1")],
         [("DV_single", none), ("buurt_id", some "b2")]]).filter
        (fun r2 => getVal r2 "buurt_id" == some "b1")).length := by
  refine ⟨?_, ?_⟩
  · exact (C3_create_analysis_sample ["DV_single", "buurt_id"] MIN_CLUSTER_SIZE
      [[("DV_single", some "50"), ("buurt_id", some "b1")],
       [("DV_single", some "60"), ("buurt_id", some "b1")],
       [("DV_single", none), ("buurt_id", some "b2")]]).2.1
      [("DV_single", some "50"), ("buurt_id", some "b1")] (by decide)
  · exact (C3_create_analysis_sample ["DV_single", "buurt_id"] MIN_CLUSTER_SIZE
      [[("DV_single", some "50"), ("buurt_id", some "b1")],
       [("DV_single", some "60"), ("buurt_id", some "b1")],
       [("DV_single", none), ("buurt_id", some "b2")]]).2.2
      [("DV_single", some "50"), ("buurt_id", some "b1")] (by decide)
      "b1" (by decide)

theorem joinMatches_length_le_one {β : Type} (right : List (LevelRow β))
    (h : (right.map LevelRow.id).Nodup) (k : Option String) :
    (joinMatches k right).length ≤ 1 := by
  induction right with
  | nil => simp [joinMatches]
  | cons r rs ih =>
    simp only [List.map_cons, List.nodup_cons] at h
    unfold joinMatches
    rw [List.filter_cons]
    by_cases hk : (k == some r.id) = true
    · have hk' : k = some r.id := by simpa using hk
      have hnil : rs.filter (fun rr => k == some rr.id) = [] := by
        apply List.filter_eq_nil_iff.mpr
        intro x hx hbeq
        have hxid : x.id = r.id := by
          have : k = some x.id := by simpa using hbeq
          rw [hk'] at this
          simpa using this.symm
        exact h.1 (hxid ▸ List.mem_map_of_mem LevelRow.id hx)
      simp [hk, joinMatches, hnil]
    · have hk'' : (k == some r.id) = false := by
        simpa using hk
      simp only [hk'', if_false, Bool.false_eq_true]
      exact ih h.2

theorem joinOne_length {α β : Type} (key : α → Option String)
    (right : List (LevelRow β)) (h : (right.map LevelRow.id).Nodup) (a : α) :
    (joinOne key right a).length = 1 := by
  unfold joinOne
  by_cases he : (joinMatches (key a) right).isEmpty
  · simp [he]
  · have hne : joinMatches (key a) right ≠ [] := by
      simpa [List.isEmpty_iff] using he
    have h1 : (joinMatches (key a) right).length ≤ 1 :=
      joinMatches_length_le_one right h (key a)
    have h0 : 0 < (joinMatches (key a) right).length :=
      List.length_pos.mpr hne
    simp only [he, if_false, Bool.false_eq_true, List.length_map]
    omega

theorem leftJoin_length {α β : Type} (left : List α) (key : α → Option String)
    (right : List (LevelRow β)) (h : (right.map LevelRow.id).Nodup) :
    (leftJoin left key right).length = left.length := by
  induction left with
  | nil => rfl
  | cons a as ih =>
    unfold leftJoin at ih ⊢
    rw [List.flatMap_cons, List.length_append, ih,
      joinOne_length key right h a, List.length_cons]
    omega

theorem mergeBuurt_length {σ β : Type} (m : List (MergedRow σ β))
    (buurt : List (LevelRow β)) (h : (buurt.map LevelRow.id).Nodup) :
    (mergeBuurt m buurt).length = m.length := by
  unfold mergeBuurt
  by_cases he : buurt.isEmpty
  · simp [he]
  · simp only [he, if_false, Bool.false_eq_true, List.length_map]
    exact leftJoin_length m _ buurt h

theorem mergeWijk_length {σ β : Type} (m : List (MergedRow σ β))
    (wijk : List (LevelRow β)) (h : (wijk.map LevelRow.id).Nodup) :
    (mergeWijk m wijk).length = m.length := by
  unfold mergeWijk
  by_cases he : wijk.isEmpty
  · simp [he]
  · simp only [he, if_false, Bool.false_eq_true, List.length_map]
    exact leftJoin_length m _ wijk h

theorem mergeGemeente_length {σ β : Type} (m : List (MergedRow σ β))
    (gemeente : List (LevelRow β)) (h : (gemeente.map LevelRow.id).Nodup) :
    (mergeGemeente m gemeente).length = m.length := by
  unfold mergeGemeente
  by_cases he : gemeente.isEmpty
  · simp [he]
  · simp only [he, if_false, Bool.false_eq_true, List.length_map]
    exact leftJoin_length m _ gemeente h

/-- C2: `merge_survey_admin` performs the three sequential left joins (buurt,
then wijk, then gemeente); whenever each level table has unique ids — the
invariant `prepare_admin_by_level` establishes — the merged table has exactly
as many rows as the survey input and the row-count warning stays silent; and
whenever the row count does change, the check `len(merged) != initial_n`
(modeled as the returned flag) reports it, so a change is never silent. -/
theorem C2_merge_survey_admin {σ β : Type} (survey : List (SurveyRow σ))
    (buurt wijk gemeente : List (LevelRow β)) :
    ((buurt.map LevelRow.id).Nodup → (wijk.map LevelRow.id).Nodup →
      (gemeente.map LevelRow.id).Nodup →
      (merge_survey_admin survey buurt wijk gemeente).1.length
          = survey.length ∧
        (merge_survey_admin survey buurt wijk gemeente).2 = false) ∧
    ((merge_survey_admin survey buurt wijk gemeente).2 = false ↔
      (merge_survey_admin survey buurt wijk gemeente).1.length
        = survey.length) := by
  constructor
  · intro hb hw hg
    have hlen : (merge_survey_admin survey buurt wijk gemeente).1.length
        = survey.length := by
      show (mergeGemeente (mergeWijk (mergeBuurt
        (survey.map (fun r => ⟨r, none, none, none⟩)) buurt) wijk)
          gemeente).length = survey.length
      rw [mergeGemeente_length _ _ hg, mergeWijk_length _ _ hw,
        mergeBuurt_length _ _ hb, List.length_map]
    refine ⟨hlen, ?_⟩
    show decide ((merge_survey_admin survey buurt wijk gemeente).1.length
      ≠ survey.length) = false
    simp [hlen]
  · show decide ((merge_survey_admin survey buurt wijk gemeente).1.length
      ≠ survey.length) = false ↔ _
    simp

/-- C2 witness: the theorem applied to a concrete two-respondent survey and
duplicate-free one-row level tables. -/
theorem C2_merge_survey_admin_witness :
    (merge_survey_admin
      [⟨(0 : ℤ), some "00000001", some "000000", some "0000"⟩,
       ⟨(1 : ℤ), some "00000002", none, none⟩]
      [⟨"00000001", (10 : ℤ)⟩] [⟨"000000", 20⟩] [⟨"0000", 30⟩]).1.length = 2 ∧
    (merge_survey_admin
      [⟨(0 : ℤ), some "00000001", some "000000", some "0000"⟩,
       ⟨(1 : ℤ), some "00000002", none, none⟩]
      [⟨"00000001", (10 : ℤ)⟩] [⟨"000000", 20⟩] [⟨"0000", 30⟩]).2 = false := by
  exact (C2_merge_survey_admin
    [⟨(0 : ℤ), some "00000001", some "000000", some "0000"⟩,
     ⟨(1 : ℤ), some "00000002", none, none⟩]
    [⟨"00000001", (10 : ℤ)⟩] [⟨"000000", 20⟩] [⟨"0000", 30⟩]).1
    (by decide) (by decide) (by decide)

/-- C10: `standardize_context_vars` is a column-wise map; a column whose name
lacks the `b_`/`w_`/`g_` tag or whose dtype is not numeric is returned
unchanged, as is a tagged numeric column whose sample standard deviation is
not strictly positive (in particular any constant column); and any column
that does change passed all three guards, so its sample variance — the square
of the `std_val` the source divides by — is strictly positive and the
z-scoring division is never by zero. -/
theorem C10_standardize_context_vars (sqrt : ℚ → ℚ) (tags : List String)
    (cols : List CtxColumn) :
    standardize_context_vars sqrt tags cols
        = cols.map (standardizeCol sqrt tags) ∧
    (∀ c : CtxColumn, (nameHasLevelTag tags c.name && c.numeric) = false →
      standardizeCol sqrt tags c = c) ∧
    (∀ c : CtxColumn, ¬ 0 < colSampleVar c → standardizeCol sqrt tags c = c) ∧
    (∀ c : CtxColumn, standardizeCol sqrt tags c ≠ c →
      nameHasLevelTag tags c.name = true ∧ c.numeric = true ∧
        0 < colSampleVar c) := by
  refine ⟨rfl, ?_, ?_, ?_⟩
  · intro c hc
    rcases Bool.and_eq_false_iff.mp hc with h | h <;>
      simp [standardizeCol, h]
  · intro c hc
    simp [standardizeCol, hc]
  · intro c hc
    by_cases h1 : nameHasLevelTag tags c.name
    · by_cases h2 : c.numeric
      · by_cases h3 : 0 < colSampleVar c
        · exact ⟨h1, h2, h3⟩
        · exact absurd (by simp [standardizeCol, h3]) hc
      · exact absurd (by simp [standardizeCol, h2]) hc
    · exact absurd (by simp [standardizeCol, h1]) hc

/-- C10 witness: the theorem applied to concrete columns — an untagged
numeric column, a tagged constant column (sample variance 0), and a tagged
two-valued column that passes every guard and is genuinely modified, with
strictly positive sample variance. -/
theorem C10_standardize_context_vars_witness :
    standardizeCol id ["b_", "w_", "g_"] ⟨"age", true, [some 1, some 2]⟩
        = ⟨"age", true, [some 1, some 2]⟩ ∧
    standardizeCol id ["b_", "w_", "g_"] ⟨"b_pop_dens", true, [some 3, some 3]⟩
        = ⟨"b_pop_dens", true, [some 3, some 3]⟩ ∧
    (nameHasLevelTag ["b_", "w_", "g_"] "b_perc_low40_hh" = true ∧
      (true : Bool) = true ∧
      0 < colSampleVar ⟨"b_perc_low40_hh", true, [some 0, some 2]⟩) := by
  have hv3 : colVals ⟨"b_pop_dens", true, [some 3, some 3]⟩ = [3, 3] := rfl
  have hm3 : colMean ⟨"b_pop_dens", true, [some 3, some 3]⟩ = 3 := by
    unfold colMean
    rw [hv3]
    norm_num
  have hvar3 : colSampleVar ⟨"b_pop_dens", true, [some 3, some 3]⟩ = 0 := by
    unfold colSampleVar
    rw [hv3, hm3]
    norm_num
  have hv0 : colVals ⟨"b_perc_low40_hh", true, [some 0, some 2]⟩ = [0, 2] := rfl
  have hm0 : colMean ⟨"b_perc_low40_hh", true, [some 0, some 2]⟩ = 1 := by
    unfold colMean
    rw [hv0]
    norm_num
  have hvar0 : colSampleVar ⟨"b_perc_low40_hh", true, [some 0, some 2]⟩ = 2 := by
    unfold colSampleVar
    rw [hv0, hm0]
    norm_num
  have htag : nameHasLevelTag ["b_", "w_", "g_"] "b_perc_low40_hh" = true := by
    decide
  have hne : standardizeCol id ["b_", "w_", "g_"]
      ⟨"b_perc_low40_hh", true, [some 0, some 2]⟩
        ≠ ⟨"b_perc_low40_hh", true, [some 0, some 2]⟩ := by
    unfold standardizeCol
    rw [hvar0, htag]
    norm_num [hm0, hvar0]
  refine ⟨?_, ?_, ?_⟩
  · exact (C10_standardize_context_vars id ["b_", "w_", "g_"] []).2.1
      ⟨"age", true, [some 1, some 2]⟩ (by decide)
  · exact (C10_standardize_context_vars id ["b_", "w_", "g_"] []).2.2.1
      ⟨"b_pop_dens", true, [some 3, some 3]⟩ (by rw [hvar3]; norm_num)
  · exact (C10_standardize_context_vars id ["b_", "w_", "g_"] []).2.2.2
      ⟨"b_perc_low40_hh", true, [some 0, some 2]⟩ hne

theorem pyLen_append (a b : String) : pyLen (a ++ b) = pyLen a + pyLen b := by
  cases a with
  | mk la =>
    cases b with
    | mk lb =>
      show (la ++ lb).length = la.length + lb.length
      exact List.length_append la lb

theorem pyLen_zfill (w : Nat) (s : String) :
    pyLen (zfill w s) = max w (pyLen s) := by
  unfold zfill
  by_cases h : w ≤ pyLen s
  · rw [if_pos h, Nat.max_eq_right h]
  · rw [if_neg h]
    have hlt : pyLen s < w := Nat.not_le.mp h
    rw [Nat.max_eq_left (Nat.le_of_lt hlt)]
    by_cases hs : (pyStartsWith s "-" || pyStartsWith s "+") = true
    · have h1 : 1 ≤ pyLen s := by
        rcases Bool.or_eq_true_iff.mp hs with h1 | h1
        · have hp := List.isPrefixOf_iff_prefix.mp h1
          simpa [pyLen] using hp.length_le
        · have hp := List.isPrefixOf_iff_prefix.mp h1
          simpa [pyLen] using hp.length_le
      simp only [hs, if_true]
      rw [pyLen_append, pyLen_append]
      show (s.data.take 1).length + _ + (s.data.drop 1).length = w
      rw [List.length_take, List.length_drop]
      show min 1 (pyLen s) + (List.replicate (w - pyLen s) '0').length
        + (pyLen s - 1) = w
      rw [List.length_replicate]
      omega
    · simp only [hs, if_false, Bool.false_eq_true]
      rw [pyLen_append]
      show (List.replicate (w - pyLen s) '0').length + pyLen s = w
      rw [List.length_replicate]
      omega

theorem dropDupFirstAux_subset {β : Type} (key : β → String)
    (seen : List String) (l : List β) :
    ∀ o ∈ dropDupFirstAux key seen l, o ∈ l := by
  induction l generalizing seen with
  | nil => simp [dropDupFirstAux]
  | cons a as ih =>
    intro o ho
    unfold dropDupFirstAux at ho
    by_cases h : key a ∈ seen
    · rw [if_pos h] at ho
      exact List.mem_cons_of_mem a (ih seen o ho)
    · rw [if_neg h] at ho
      rcases List.mem_cons.mp ho with rfl | ho
      · exact List.mem_cons_self _ _
      · exact List.mem_cons_of_mem a (ih (key a :: seen) o ho)

theorem dropDupFirstAux_key_not_seen {β : Type} (key : β → String)
    (seen : List String) (l : List β) :
    ∀ o ∈ dropDupFirstAux key seen l, key o ∉ seen := by
  induction l generalizing seen with
  | nil => simp [dropDupFirstAux]
  | cons a as ih =>
    intro o ho
    unfold dropDupFirstAux at ho
    by_cases h : key a ∈ seen
    · rw [if_pos h] at ho
      exact ih seen o ho
    · rw [if_neg h] at ho
      rcases List.mem_cons.mp ho with rfl | ho
      · exact h
      · have := ih (key a :: seen) o ho
        exact fun hc => this (List.mem_cons_of_mem _ hc)

theorem dropDupFirstAux_nodup {β : Type} (key : β → String)
    (seen : List String) (l : List β) :
    ((dropDupFirstAux key seen l).map key).Nodup := by
  induction l generalizing seen with
  | nil => simp [dropDupFirstAux]
  | cons a as ih =>
    unfold dropDupFirstAux
    by_cases h : key a ∈ seen
    · rw [if_pos h]
      exact ih seen
    · rw [if_neg h]
      rw [List.map_cons, List.nodup_cons]
      refine ⟨?_, ih (key a :: seen)⟩
      intro hmem
      rcases List.mem_map.mp hmem with ⟨o, ho, hko⟩
      have := dropDupFirstAux_key_not_seen key (key a :: seen) as o ho
      exact this (hko ▸ List.mem_cons_self _ _)

theorem dropDupFirstAux_find {β : Type} (key : β → String)
    (seen : List String) (l : List β) :
    ∀ o ∈ dropDupFirstAux key seen l,
      l.find? (fun t => key t == key o) = some o := by
  induction l generalizing seen with
  | nil => simp [dropDupFirstAux]
  | cons a as ih =>
    intro o ho
    unfold dropDupFirstAux at ho
    by_cases h : key a ∈ seen
    · rw [if_pos h] at ho
      have hno := dropDupFirstAux_key_not_seen key seen as o ho
      have hne : key a ≠ key o := fun hc => hno (hc ▸ h)
      rw [List.find?_cons_of_neg _ (by simpa using hne)]
      exact ih seen o ho
    · rw [if_neg h] at ho
      rcases List.mem_cons.mp ho with rfl | ho
      · rw [List.find?_cons_of_pos _ (by simp)]
      · have hno := dropDupFirstAux_key_not_seen key (key a :: seen) as o ho
        have hne : key a ≠ key o := by
          intro hc
          exact hno (hc ▸ List.mem_cons_self _ _)
        rw [List.find?_cons_of_neg _ (by simpa using hne)]
        exact ih (key a :: seen) o ho

theorem dropDupFirstAux_keys {β : Type} (key : β → String) (l : List β)
    (b : String) :
    ∀ seen : List String, b ∉ seen →
      ((∃ o ∈ dropDupFirstAux key seen l, key o = b) ↔ ∃ o ∈ l, key o = b) := by
  induction l with
  | nil => intro seen _; simp [dropDupFirstAux]
  | cons a as ih =>
    intro seen hb
    unfold dropDupFirstAux
    by_cases h : key a ∈ seen
    · rw [if_pos h, ih seen hb]
      constructor
      · rintro ⟨o, ho, rfl⟩
        exact ⟨o, List.mem_cons_of_mem a ho, rfl⟩
      · rintro ⟨o, ho, rfl⟩
        rcases List.mem_cons.mp ho with rfl | ho
        · exact absurd h hb
        · exact ⟨o, ho, rfl⟩
    · rw [if_neg h]
      by_cases hab : key a = b
      · constructor
        · intro _
          exact ⟨a, List.mem_cons_self _ _, hab⟩
        · intro _
          exact ⟨a, List.mem_cons_self _ _, hab⟩
      · have hb' : b ∉ key a :: seen := by
          intro hc
          rcases List.mem_cons.mp hc with hc | hc
          · exact hab hc.symm
          · exact hb hc
        constructor
        · rintro ⟨o, ho, rfl⟩
          rcases List.mem_cons.mp ho with rfl | ho
          · exact absurd rfl hab
          · rcases (ih (key a :: seen) hb').mp ⟨o, ho, rfl⟩ with ⟨o', ho', he⟩
            exact ⟨o', List.mem_cons_of_mem a ho', he⟩
        · rintro ⟨o, ho, rfl⟩
          rcases List.mem_cons.mp ho with rfl | ho
          · exact absurd rfl hab
          · rcases (ih (key a :: seen) hb').mpr ⟨o, ho, rfl⟩ with ⟨o', ho', he⟩
            exact ⟨o', List.mem_cons_of_mem a ho', he⟩

/-- C5: `prepare_admin_by_level` keeps, for each level, exactly the rows
whose cleaned region code starts with that level's recognized two-character
head (`BU`/`WK`/`GM`; any other head reaches none of the three level tables,
so deleting such rows changes nothing); each output id is the parsed
remainder zero-filled to the level's width (8/6/4), output ids are pairwise
distinct with the first occurrence of each id kept, an id appears exactly
when some row of that level parses to it, and every output id has at least
the level's width (`zfill` yields length `max width (input length)`). -/
theorem C5_prepare_admin_by_level {α : Type} (admin : List (AdminRow α))
    (lvl : GeoLevel) :
    ((prepare_admin_by_level lvl admin).map LevelRow.id).Nodup ∧
    (∀ o ∈ prepare_admin_by_level lvl admin, ∃ r ∈ admin,
      regionType (pyStrip r.code) = some lvl ∧
      o.id = zfill (idLength lvl) (parsedRegionId r.code) ∧
      o.payload = r.payload) ∧
    (∀ o ∈ prepare_admin_by_level lvl admin,
      ((admin.filter (fun r => regionType (pyStrip r.code) = some lvl)).map
          (fun r => LevelRow.mk (zfill (idLength lvl) (parsedRegionId r.code))
            r.payload)).find? (fun t => t.id == o.id) = some o) ∧
    (∀ b : String, (∃ o ∈ prepare_admin_by_level lvl admin, o.id = b) ↔
      ∃ r ∈ admin, regionType (pyStrip r.code) = some lvl ∧
        zfill (idLength lvl) (parsedRegionId r.code) = b) ∧
    prepare_admin_by_level lvl admin = prepare_admin_by_level lvl
      (admin.filter (fun r => (regionType (pyStrip r.code)).isSome)) ∧
    (∀ o ∈ prepare_admin_by_level lvl admin, idLength lvl ≤ pyLen o.id) ∧
    (∀ (wd : Nat) (st : String), pyLen (zfill wd st) = max wd (pyLen st)) := by
  have hsub : ∀ o ∈ prepare_admin_by_level lvl admin, ∃ r ∈ admin,
      regionType (pyStrip r.code) = some lvl ∧
      o = LevelRow.mk (zfill (idLength lvl) (parsedRegionId r.code))
        r.payload := by
    intro o ho
    simp only [prepare_admin_by_level, dropDupFirst] at ho
    have h1 := dropDupFirstAux_subset LevelRow.id [] _ o ho
    rcases List.mem_map.mp h1 with ⟨r, hr, rfl⟩
    rcases List.mem_filter.mp hr with ⟨hra, hrp⟩
    exact ⟨r, hra, of_decide_eq_true hrp, rfl⟩
  refine ⟨?_, ?_, ?_, ?_, ?_, ?_, pyLen_zfill⟩
  · simp only [prepare_admin_by_level, dropDupFirst]
    exact dropDupFirstAux_nodup LevelRow.id [] _
  · intro o ho
    rcases hsub o ho with ⟨r, hra, hrt, rfl⟩
    exact ⟨r, hra, hrt, rfl, rfl⟩
  · intro o ho
    simp only [prepare_admin_by_level, dropDupFirst] at ho
    exact dropDupFirstAux_find LevelRow.id [] _ o ho
  · intro b
    have hkeys := dropDupFirstAux_keys LevelRow.id
      ((admin.filter (fun r => regionType (pyStrip r.code) = some lvl)).map
        (fun r => LevelRow.mk (zfill (idLength lvl) (parsedRegionId r.code))
          r.payload)) b [] (List.not_mem_nil b)
    simp only [prepare_admin_by_level, dropDupFirst]
    rw [hkeys]
    constructor
    · rintro ⟨o, ho, rfl⟩
      rcases List.mem_map.mp ho with ⟨r, hr, rfl⟩
      rcases List.mem_filter.mp hr with ⟨hra, hrp⟩
      exact ⟨r, hra, of_decide_eq_true hrp, rfl⟩
    · rintro ⟨r, hra, hrt, rfl⟩
      refine ⟨LevelRow.mk (zfill (idLength lvl) (parsedRegionId r.code))
        r.payload, ?_, rfl⟩
      exact List.mem_map_of_mem _
        (List.mem_filter.mpr ⟨hra, decide_eq_true hrt⟩)
  · unfold prepare_admin_by_level
    have hff : (admin.filter
          (fun r => (regionType (pyStrip r.code)).isSome)).filter
        (fun r => regionType (pyStrip r.code) = some lvl)
        = admin.filter (fun r => regionType (pyStrip r.code) = some lvl) := by
      rw [List.filter_filter]
      apply List.filter_congr
      intro r _
      by_cases hr : regionType (pyStrip r.code) = some lvl
      · simp [hr]
      · simp [hr]
    rw [hff]
  · intro o ho
    rcases hsub o ho with ⟨r, _, _, rfl⟩
    show idLength lvl ≤ pyLen (zfill (idLength lvl) (parsedRegionId r.code))
    rw [pyLen_zfill]
    exact Nat.le_max_left _ _

/-- C5 witness: the theorem applied to a concrete admin table containing a
buurt row, a gemeente row, an unrecognized-head row, and a duplicate buurt
id; the buurt output row "00000123" (payload of the first occurrence)
originates from a recognized `BU` row and is padded to width 8. -/
theorem C5_prepare_admin_by_level_witness :
    (∃ r ∈ ([⟨"BU123", 7⟩, ⟨"GM45", 1⟩, ⟨"XX9", 2⟩, ⟨"BU123", 8⟩] :
        List (AdminRow ℤ)),
      regionType (pyStrip r.code) = some GeoLevel.buurt ∧
      (⟨"00000123", 7⟩ : LevelRow ℤ).id
        = zfill (idLength GeoLevel.buurt) (parsedRegionId r.code) ∧
      (⟨"00000123", 7⟩ : LevelRow ℤ).payload = r.payload) ∧
    idLength GeoLevel.buurt ≤ pyLen (⟨"00000123", 7⟩ : LevelRow ℤ).id := by
  refine ⟨?_, ?_⟩
  · exact (C5_prepare_admin_by_level
      [⟨"BU123", 7⟩, ⟨"GM45", 1⟩, ⟨"XX9", 2⟩, ⟨"BU123", 8⟩]
      GeoLevel.buurt).2.1 ⟨"00000123", 7⟩ (by decide)
  · exact (C5_prepare_admin_by_level
      [⟨"BU123", 7⟩, ⟨"GM45", 1⟩, ⟨"XX9", 2⟩, ⟨"BU123", 8⟩]
      GeoLevel.buurt).2.2.2.2.2.1 ⟨"00000123", 7⟩ (by decide)

/-- A fitter in which the empty model m0 converges but the first extension
m1 raises a numerical failure. -/
def failOnM1Fit : String → Except String Unit := fun slot =>
  if slot = "m1_key_pred" then Except.error "convergence failure"
  else Except.ok ()

/-- C7 counterexample: with a failure only in m1, `fit_four_level_models`
returns the raised error — the failure is not caught per-model, the later
models are not attempted, and the already-fitted m0 is not preserved (the
pipeline driver's whole-sequence handler keeps no models at all). -/
theorem C7_counterexample :
    fit_four_level_models failOnM1Fit = Except.error "convergence failure" ∧
    run_four_level_stage failOnM1Fit = none ∧
    failOnM1Fit "m0_empty" = Except.ok () := by
  refine ⟨rfl, rfl, rfl⟩

/-- C7 amended: in `fit_four_level_models` the five REML fits run in a
straight line with no per-model exception handling, so the first failure
propagates as-is and aborts the rest of the sequence; only when all five
fits succeed is the model container returned; and the caller in
run_pipeline.py catches around the whole sequence, so on any failure it
retains none of the four-level models (not even those already fitted). -/
theorem C7_fit_four_level_models {μ : Type} (fit : String → Except String μ) :
    (∀ e, fit "m0_empty" = Except.error e →
      fit_four_level_models fit = Except.error e) ∧
    (∀ m0 e, fit "m0_empty" = Except.ok m0 →
      fit "m1_key_pred" = Except.error e →
      fit_four_level_models fit = Except.error e) ∧
    (∀ m0 m1 e, fit "m0_empty" = Except.ok m0 →
      fit "m1_key_pred" = Except.ok m1 →
      fit "m2_ind_controls" = Except.error e →
      fit_four_level_models fit = Except.error e) ∧
    (∀ m0 m1 m2 e, fit "m0_empty" = Except.ok m0 →
      fit "m1_key_pred" = Except.ok m1 →
      fit "m2_ind_controls" = Except.ok m2 →
      fit "m3_buurt_controls" = Except.error e →
      fit_four_level_models fit = Except.error e) ∧
    (∀ m0 m1 m2 m3 e, fit "m0_empty" = Except.ok m0 →
      fit "m1_key_pred" = Except.ok m1 →
      fit "m2_ind_controls" = Except.ok m2 →
      fit "m3_buurt_controls" = Except.ok m3 →
      fit "m4_wijk_controls" = Except.error e →
      fit_four_level_models fit = Except.error e) ∧
    (∀ m0 m1 m2 m3 m4, fit "m0_empty" = Except.ok m0 →
      fit "m1_key_pred" = Except.ok m1 →
      fit "m2_ind_controls" = Except.ok m2 →
      fit "m3_buurt_controls" = Except.ok m3 →
      fit "m4_wijk_controls" = Except.ok m4 →
      fit_four_level_models fit = Except.ok ⟨m0, m1, m2, m3, m4⟩) ∧
    (∀ e, fit_four_level_models fit = Except.error e →
      run_four_level_stage fit = none) := by
  refine ⟨?_, ?_, ?_, ?_, ?_, ?_, ?_⟩
  · intro e h0
    simp only [fit_four_level_models, h0]
    rfl
  · intro m0 e h0 h1
    simp only [fit_four_level_models, h0, h1]
    rfl
  · intro m0 m1 e h0 h1 h2
    simp only [fit_four_level_models, h0, h1, h2]
    rfl
  · intro m0 m1 m2 e h0 h1 h2 h3
    simp only [fit_four_level_models, h0, h1, h2, h3]
    rfl
  · intro m0 m1 m2 m3 e h0 h1 h2 h3 h4
    simp only [fit_four_level_models, h0, h1, h2, h3, h4]
    rfl
  · intro m0 m1 m2 m3 m4 h0 h1 h2 h3 h4
    simp only [fit_four_level_models, h0, h1, h2, h3, h4]
    rfl
  · intro e he
    simp [run_four_level_stage, he]

/-- C7 witness: the amended theorem applied to the concrete fitter that
fails exactly on m1. -/
theorem C7_fit_four_level_models_witness :
    fit_four_level_models failOnM1Fit = Except.error "convergence failure" ∧
    run_four_level_stage failOnM1Fit = none := by
  have h := (C7_fit_four_level_models failOnM1Fit).2.1 () "convergence failure"
    rfl rfl
  exact ⟨h, (C7_fit_four_level_models failOnM1Fit).2.2.2.2.2.2
    "convergence failure" h⟩
